import Mathlib

/-!
Formal model of the volt-lsp protocol bridge (`src/tsserver-proxy.js` and
`src/lsp-connection.js`): the coordinate/severity translation layer, the
backend-process supervisor with its request correlator, the URI/path
conversion helpers, and the Content-Length transport framer.  Each
definition is a direct shallow embedding of the corresponding JavaScript
function; theorems settle the specification's claims about them.
-/

namespace VoltLSP

/-! ## Coordinate and severity translation (tsserver-proxy.js)

tsserver positions are 1-based `(line, offset)`; LSP positions are 0-based
`(line, character)`.  Coordinates are modelled as `Int`, mirroring
JavaScript number arithmetic on these fields. -/

/-- A tsserver protocol position: 1-based line/offset. -/
structure TSPosition where
  line : Int
  offset : Int
deriving Repr, DecidableEq

/-- An LSP protocol position: 0-based line/character. -/
structure LSPPosition where
  line : Int
  character : Int
deriving Repr, DecidableEq

/-- An LSP range: start and end positions. -/
structure LSPRange where
  start : LSPPosition
  endPos : LSPPosition
deriving Repr, DecidableEq

/-- A tsserver diagnostic record as carried by `semanticDiag` / `syntaxDiag` /
`suggestionDiag` events: `start`/`end` positions, a `category` string, the
message `text` and a numeric `code`. -/
structure TSDiagnostic where
  start : TSPosition
  endPos : TSPosition
  category : String
  text : String
  code : Int
deriving Repr, DecidableEq

/-- An LSP diagnostic as built by `handleDiagnosticsEvent`. -/
structure LSPDiagnostic where
  range : LSPRange
  severity : Int
  source : String
  message : String
  code : Int
deriving Repr, DecidableEq

/-- Client-to-backend position translation, as performed inline by
`getCompletions` / `getHover` / `getDefinition`:
`line: position.line + 1, offset: position.character + 1`. -/
def lspToTSPosition (p : LSPPosition) : TSPosition :=
  { line := p.line + 1, offset := p.character + 1 }

/-- Backend-to-client position translation, as performed inline by
`handleDiagnosticsEvent` / `getHover` / `getDefinition` /
`convertTSServerChangesToWorkspaceEdit`:
`line: x.line - 1, character: x.offset - 1`. -/
def tsToLSPPosition (p : TSPosition) : LSPPosition :=
  { line := p.line - 1, character := p.offset - 1 }

/-- `TSServerProxy.mapTSServerSeverity`: the switch on the diagnostic
category.  `error` ↦ 1, `warning` ↦ 2, `suggestion` ↦ 3, default ↦ 4. -/
def mapTSServerSeverity (category : String) : Int :=
  if category = "error" then 1
  else if category = "warning" then 2
  else if category = "suggestion" then 3
  else 4

/-- The per-diagnostic body of `handleDiagnosticsEvent`: translates one
tsserver diagnostic into an LSP diagnostic, subtracting 1 from both
endpoints and mapping the category through `mapTSServerSeverity`. -/
def tsDiagnosticToLsp (diag : TSDiagnostic) : LSPDiagnostic :=
  { range :=
      { start := { line := diag.start.line - 1, character := diag.start.offset - 1 }
        endPos := { line := diag.endPos.line - 1, character := diag.endPos.offset - 1 } }
    severity := mapTSServerSeverity diag.category
    source := "tsserver"
    message := diag.text
    code := diag.code }

/-! ## The TSServerProxy supervisor / request correlator (tsserver-proxy.js)

The proxy is single-threaded and event-driven; each externally observable
callback (a client call, a backend response, a timer firing, a process
exit event) runs to completion before the next one.  The machine below
has one step per such callback.  Observable history is recorded in
traces: `written` (requests written to a backend process's stdin),
`events` (events the proxy emits on itself), `settled` (settlements of
pending-request promises), `assigned` (sequence ids in assignment
order).

The model assumes `findTSServer` succeeds (the executable exists);
spawn-failure is outside the claims considered here. -/

/-- How a pending request's promise settled. -/
inductive Outcome where
  /-- `resolve(response.body)` on a successful backend response. -/
  | resolved
  /-- `reject(new Error(response.message))` on a failed backend response. -/
  | backendError
  /-- `reject(new Error('TSServer request timeout: ...'))` from the
  `setTimeout` callback in `sendTSServerRequest`. -/
  | timeout
  /-- `reject(new Error('TSServer process exited.'))` from
  `_handleUnexpectedExit`. -/
  | processExited
deriving Repr, DecidableEq

/-- Lifecycle events emitted by the proxy (`this.emit(...)`). -/
inductive ProxyEvent where
  /-- `this.emit('exit', code)` from the child-process exit handler. -/
  | exited (code : Int)
  /-- `this.emit('restarting')` from `_handleUnexpectedExit`. -/
  | restarting
  /-- `this.emit('restarted')` from `_spawnTSServer` after the replay loop. -/
  | restarted
deriving Repr, DecidableEq

/-- One entry of `this.pendingRequests` (keyed by sequence id in the
surrounding association list).  `createdAt` is the time the entry was
registered; the request's timer is armed exactly while the entry is in
the table (`clearTimeout` runs in the stored resolve/reject wrappers,
and the timeout callback deletes the entry itself). -/
structure PendingEntry where
  command : String
  createdAt : Nat
deriving Repr, DecidableEq

/-- Trace record: a request written to a backend process's stdin. -/
structure WrittenRequest where
  seq : Nat
  command : String
  /-- Which spawned backend process (by spawn generation) received it. -/
  pid : Nat
deriving Repr, DecidableEq

/-- Trace record: one settlement of a pending request's promise. -/
structure Settlement where
  seq : Nat
  outcome : Outcome
  command : String
  createdAt : Nat
  settledAt : Nat
deriving Repr, DecidableEq

/-- The state of a `TSServerProxy` instance, plus observation traces. -/
structure ProxyState where
  /-- `this.tsserver`: the current child-process handle (its spawn
  generation), or `none`. -/
  tsserver : Option Nat
  /-- `this.requestId`: the last assigned sequence id. -/
  requestId : Nat
  /-- `this.pendingRequests`: sequence id ↦ pending entry, in insertion
  order. -/
  pending : List (Nat × PendingEntry)
  /-- `this.isRestarting`. -/
  isRestarting : Bool
  /-- `this.openFiles`: uri ↦ latest content, in JavaScript `Map`
  insertion order (document-open order). -/
  openFiles : List (String × String)
  /-- Spawned child processes whose `exit` event has not yet fired.  A
  killed process stays here until its exit event is delivered. -/
  liveProcs : List Nat
  /-- Whether the 5-second restart `setTimeout` of
  `_handleUnexpectedExit` is armed. -/
  restartTimer : Bool
  /-- Next spawn generation. -/
  nextPid : Nat
  /-- Current time in milliseconds. -/
  now : Nat
  written : List WrittenRequest
  events : List ProxyEvent
  settled : List Settlement
  assigned : List Nat
deriving Repr, DecidableEq

/-- The timeout passed to `setTimeout` in `sendTSServerRequest`: the
literal 30000 ms, used for every command. -/
def tsserverRequestTimeout : Nat := 30000

/-- Build a settlement trace record for sequence id `seq` settling with
`outcome` at time `t`, copying the pending entry's data. -/
def mkSettlement (seq : Nat) (outcome : Outcome) (e : PendingEntry) (t : Nat) :
    Settlement :=
  { seq := seq, outcome := outcome, command := e.command,
    createdAt := e.createdAt, settledAt := t }

/-- JavaScript `Map.prototype.set`: updates the value in place when the
key exists (keeping its insertion position), otherwise appends. -/
def mapSet (m : List (String × String)) (k v : String) : List (String × String) :=
  if m.any (fun p => p.1 == k) then
    m.map (fun p => if p.1 == k then (k, v) else p)
  else m ++ [(k, v)]

/-- JavaScript `Map.prototype.delete` on the open-files map. -/
def mapDelete (m : List (String × String)) (k : String) : List (String × String) :=
  m.filter (fun p => p.1 != k)

/-- `TSServerProxy.sendTSServerRequest(command, args)`.  Returns the new
state and the assigned sequence id, or `none` when the guard
`if (!this.tsserver || this.isRestarting)` rejected the call
immediately (no id is assigned and nothing is written). -/
def sendTSServerRequest (s : ProxyState) (command : String) :
    ProxyState × Option Nat :=
  match s.tsserver with
  | none => (s, none)
  | some pid =>
    if s.isRestarting then (s, none)
    else
      let rid := s.requestId + 1
      ({ s with
          requestId := rid
          written := s.written ++ [{ seq := rid, command := command, pid := pid }]
          pending := s.pending ++ [(rid, { command := command, createdAt := s.now })]
          assigned := s.assigned ++ [rid] }, some rid)

/-- `TSServerProxy.openFile(uri, content)`: records the snapshot in
`this.openFiles`, then awaits `sendTSServerRequest('open', ...)`.  When
that send is rejected by its guard, the awaited promise rejects and the
rest of `openFile` (the `geterr` request) never runs.  When it succeeds,
the follow-up `geterr` request is only sent once the open response
resolves; that later send is represented as a separate step of the
machine. -/
def openFile (s : ProxyState) (uri content : String) : ProxyState :=
  let s1 := { s with openFiles := mapSet s.openFiles uri content }
  (sendTSServerRequest s1 "open").1

/-- `TSServerProxy.updateFile(uri, content)`: updates the snapshot and
sends `reload` (follow-up `geterr` as a separate later step). -/
def updateFile (s : ProxyState) (uri content : String) : ProxyState :=
  let s1 := { s with openFiles := mapSet s.openFiles uri content }
  (sendTSServerRequest s1 "reload").1

/-- `TSServerProxy.closeFile(uri)`: deletes the snapshot and sends
`close`. -/
def closeFile (s : ProxyState) (uri : String) : ProxyState :=
  let s1 := { s with openFiles := mapDelete s.openFiles uri }
  (sendTSServerRequest s1 "close").1

/-- `TSServerProxy._spawnTSServer`: kills any existing process (its exit
event fires later), spawns a fresh one, sends the `configure` request,
and — when `this.isRestarting` is set — re-runs `openFile` for every
open-files entry, emits `'restarted'`, and clears `isRestarting`. -/
def spawnTSServer (s : ProxyState) : ProxyState :=
  let pid := s.nextPid
  let s1 := { s with
      tsserver := some pid
      nextPid := pid + 1
      liveProcs := s.liveProcs ++ [pid] }
  let s2 := (sendTSServerRequest s1 "configure").1
  if s2.isRestarting then
    let s3 := s2.openFiles.foldl (fun acc kv => openFile acc kv.1 kv.2) s2
    { s3 with events := s3.events ++ [ProxyEvent.restarted], isRestarting := false }
  else s2

/-- `TSServerProxy.start()`. -/
def start (s : ProxyState) : ProxyState := spawnTSServer s

/-- `TSServerProxy._handleUnexpectedExit`: returns immediately when a
restart is already in progress; otherwise sets `isRestarting`, emits
`'restarting'`, rejects every pending entry with the same
`Error('TSServer process exited.')`, clears the table, and arms the
5-second restart timer.  All of this runs in one callback (one
scheduler tick). -/
def handleUnexpectedExit (s : ProxyState) : ProxyState :=
  if s.isRestarting then s
  else
    { s with
        isRestarting := true
        events := s.events ++ [ProxyEvent.restarting]
        settled := s.settled ++ s.pending.map (fun kv =>
          mkSettlement kv.1 Outcome.processExited kv.2 s.now)
        pending := []
        restartTimer := true }

/-- The `this.tsserver.on('exit', ...)` handler: clears the process
handle, emits `'exit'`, and calls `_handleUnexpectedExit`. -/
def handleProcessExit (s : ProxyState) (code : Int) : ProxyState :=
  handleUnexpectedExit
    { s with tsserver := none, events := s.events ++ [ProxyEvent.exited code] }

/-- `TSServerProxy.handleTSServerResponse` on a `type === 'response'`
message: looks up `request_seq` in the pending table; when present,
deletes the entry and settles it (resolve on `success`, reject on
failure).  An unmatched sequence id is ignored. -/
def handleTSServerResponse (s : ProxyState) (seq : Nat) (success : Bool) :
    ProxyState :=
  match s.pending.lookup seq with
  | none => s
  | some entry =>
    { s with
        pending := s.pending.filter (fun kv => kv.1 != seq)
        settled := s.settled ++ [mkSettlement seq
          (if success then Outcome.resolved else Outcome.backendError)
          entry s.now] }

/-- The `setTimeout` callback registered by `sendTSServerRequest`: a
no-op when the entry has already settled (the timer was cleared), and
never runs before its 30000 ms delay has elapsed; otherwise deletes the
entry and rejects it with the timeout error. -/
def fireRequestTimeout (s : ProxyState) (seq : Nat) : ProxyState :=
  match s.pending.lookup seq with
  | none => s
  | some entry =>
    if s.now < entry.createdAt + tsserverRequestTimeout then s
    else
      { s with
          pending := s.pending.filter (fun kv => kv.1 != seq)
          settled := s.settled ++ [mkSettlement seq Outcome.timeout entry s.now] }

/-- The restart `setTimeout` callback armed by `_handleUnexpectedExit`:
calls `this.start()` 5 seconds after the crash. -/
def fireRestartTimer (s : ProxyState) : ProxyState :=
  if s.restartTimer then start { s with restartTimer := false } else s

/-- `TSServerProxy.shutdown()`: kills the process if any (the killed
process's exit handler stays attached and its exit event fires later),
clears the handle, and clears the pending table without settling or
emitting anything.  `isRestarting` and the restart timer are not
touched. -/
def shutdown (s : ProxyState) : ProxyState :=
  { s with tsserver := none, pending := [] }

/-- The event-loop alphabet: each constructor is one callback invocation
observable by the proxy. -/
inductive ProxyStep where
  /-- `start()` called by the host. -/
  | start
  /-- A client-driven request through any of the per-command wrappers
  (`getCompletions`, `getHover`, `getDefinition`, `getCodeActions`,
  `geterr`, ...), all of which delegate to `sendTSServerRequest`. -/
  | clientSend (command : String)
  /-- A client `didOpen` notification, forwarded through `openFile`. -/
  | clientOpen (uri content : String)
  /-- A client `didChange` notification (`updateFile`). -/
  | clientUpdate (uri content : String)
  /-- A client `didClose` notification (`closeFile`). -/
  | clientClose (uri : String)
  /-- A backend `type: 'response'` message with `request_seq = seq`. -/
  | response (seq : Nat) (success : Bool)
  /-- The per-request timeout timer for `seq` firing. -/
  | requestTimeout (seq : Nat)
  /-- The exit event of spawned process `pid` being delivered. -/
  | processExit (pid : Nat) (code : Int)
  /-- The 5-second restart timer firing. -/
  | restartTimerFired
  /-- `shutdown()` called by the host. -/
  | shutdown
  /-- Passage of `d` milliseconds. -/
  | timeAdvance (d : Nat)
deriving Repr, DecidableEq

/-- One event-loop callback. -/
def step (s : ProxyState) : ProxyStep → ProxyState
  | ProxyStep.start => start s
  | ProxyStep.clientSend c => (sendTSServerRequest s c).1
  | ProxyStep.clientOpen uri content => openFile s uri content
  | ProxyStep.clientUpdate uri content => updateFile s uri content
  | ProxyStep.clientClose uri => closeFile s uri
  | ProxyStep.response seq success => handleTSServerResponse s seq success
  | ProxyStep.requestTimeout seq => fireRequestTimeout s seq
  | ProxyStep.processExit pid code =>
      if pid ∈ s.liveProcs then
        handleProcessExit { s with liveProcs := s.liveProcs.filter (· != pid) } code
      else s
  | ProxyStep.restartTimerFired => fireRestartTimer s
  | ProxyStep.shutdown => shutdown s
  | ProxyStep.timeAdvance d => { s with now := s.now + d }

/-- The state built by the `TSServerProxy` constructor. -/
def initState : ProxyState :=
  { tsserver := none, requestId := 0, pending := [], isRestarting := false,
    openFiles := [], liveProcs := [], restartTimer := false, nextPid := 0,
    now := 0, written := [], events := [], settled := [], assigned := [] }

/-- Run a sequence of event-loop callbacks. -/
def run (s : ProxyState) (steps : List ProxyStep) : ProxyState :=
  steps.foldl step s

/-- The sequence ids currently in the pending table. -/
def pendingIds (s : ProxyState) : List Nat := s.pending.map (·.1)

/-! ## The LSP transport framer (lsp-connection.js)

`LSPConnection.sendMessage` writes `Content-Length: <n>\r\n\r\n` followed
by `JSON.stringify(message)`, where `n = Buffer.byteLength(content,
'utf8')` is the UTF-8 byte length.  `LSPConnection.handleIncomingData`
appends the chunk to a string buffer and repeatedly: finds the first
`\r\n\r\n`, extracts `Content-Length` from the header with a regex
(skipping the header when it is missing), waits when the buffer holds
fewer than `messageStart + contentLength` string units, otherwise slices
exactly `contentLength` string units, `JSON.parse`s them (dropping the
frame on a parse error) and loops.  Note that the reader counts JS
string code units while the writer declared UTF-8 bytes.  The model
represents the JS string as a `List Char` (exact for strings without
surrogate pairs) and message payloads as a `Json` value rendered the way
`JSON.stringify` renders it; `parseJson` models `JSON.parse` on the
compact documents that `JSON.stringify` emits (integer numerals, no
inter-token whitespace required). -/

/-- JSON values as they occur in protocol envelopes (numbers restricted
to integers, which is all the protocol carries). -/
inductive Json where
  | null
  | boolean (b : Bool)
  | num (n : Int)
  | str (s : List Char)
  | arr (elems : List Json)
  | obj (fields : List (List Char × Json))
deriving Repr

/-- Lower-case hexadecimal digit, as used by `JSON.stringify`'s
`\u00xx` escapes. -/
def hexDigitLower (n : Nat) : Char :=
  if n < 10 then Char.ofNat (48 + n) else Char.ofNat (87 + n)

/-- One character of `JSON.stringify` string escaping: `"`, `\`, the
shorthand control escapes, `\u00xx` for the remaining control
characters, and everything else verbatim. -/
def escapeChar (c : Char) : List Char :=
  if c = '\"' then ['\\', '\"']
  else if c = '\\' then ['\\', '\\']
  else if c = '\x08' then ['\\', 'b']
  else if c = '\x0c' then ['\\', 'f']
  else if c = '\n' then ['\\', 'n']
  else if c = '\r' then ['\\', 'r']
  else if c = '\t' then ['\\', 't']
  else if c.toNat < 32 then
    ['\\', 'u', '0', '0', hexDigitLower (c.toNat / 16),
      hexDigitLower (c.toNat % 16)]
  else [c]

mutual

/-- `JSON.stringify` of a `Json` value (compact form, insertion-ordered
object fields). -/
def Json.render : Json → List Char
  | Json.null => ['n', 'u', 'l', 'l']
  | Json.boolean true => ['t', 'r', 'u', 'e']
  | Json.boolean false => ['f', 'a', 'l', 's', 'e']
  | Json.num n => (toString n).data
  | Json.str s => '\"' :: (s.map escapeChar).flatten ++ ['\"']
  | Json.arr xs => '[' :: Json.renderElems xs ++ [']']
  | Json.obj fs => '\x7b' :: Json.renderFields fs ++ ['\x7d']

/-- Comma-separated rendering of array elements. -/
def Json.renderElems : List Json → List Char
  | [] => []
  | [x] => x.render
  | x :: y :: xs => x.render ++ ',' :: Json.renderElems (y :: xs)

/-- Comma-separated rendering of object fields. -/
def Json.renderFields : List (List Char × Json) → List Char
  | [] => []
  | [(k, v)] => '\"' :: (k.map escapeChar).flatten ++ '\"' :: ':' :: v.render
  | (k, v) :: f :: fs =>
    ('\"' :: (k.map escapeChar).flatten ++ '\"' :: ':' :: v.render) ++
      ',' :: Json.renderFields (f :: fs)

end

/-- `Buffer.byteLength(s, 'utf8')`: the UTF-8 byte length of a
string. -/
def utf8Length (cs : List Char) : Nat := (cs.map Char.utf8Size).sum

/-- `LSPConnection.sendMessage(message)`: the exact character stream it
writes — a `Content-Length` header declaring the UTF-8 byte count,
`\r\n\r\n`, then the stringified payload. -/
def encodeMessage (message : Json) : List Char :=
  let content := message.render
  ("Content-Length: " ++ toString (utf8Length content)).data
    ++ ['\r', '\n', '\r', '\n'] ++ content

/-- Whether `pat` occurs at the head of `hay`. -/
def startsWithSeq : List Char → List Char → Bool
  | _, [] => true
  | [], _ :: _ => false
  | c :: cs, p :: ps => c == p && startsWithSeq cs ps

/-- `String.prototype.indexOf`: index of the first occurrence of
`pat` in `hay`. -/
def indexOfSeq (hay pat : List Char) : Option Nat :=
  if startsWithSeq hay pat then some 0
  else
    match hay with
    | [] => none
    | _ :: t => (indexOfSeq t pat).map (· + 1)

/-- Decimal value of a digit run (`parseInt` on a matched `\d+`). -/
def parseNatDigits (ds : List Char) : Nat :=
  ds.foldl (fun a c => a * 10 + (c.toNat - 48)) 0

/-- The `header.match(/Content-Length: (\d+)/)` extraction: the digit
run following the first occurrence of the literal
`Content-Length: `. -/
def contentLengthOf (header : List Char) : Option Nat :=
  match indexOfSeq header ("Content-Length: ".data) with
  | none => none
  | some i =>
    let ds := (header.drop (i + 16)).takeWhile Char.isDigit
    if ds.isEmpty then none else some (parseNatDigits ds)

/-- JSON insignificant whitespace skipping. -/
def skipWs : List Char → List Char
  | [] => []
  | c :: t =>
    if c = ' ' ∨ c = '\t' ∨ c = '\n' ∨ c = '\r' then skipWs t else c :: t

/-- Value of one hexadecimal digit character. -/
def hexValOfChar (c : Char) : Option Nat :=
  if '0' ≤ c ∧ c ≤ '9' then some (c.toNat - 48)
  else if 'a' ≤ c ∧ c ≤ 'f' then some (c.toNat - 87)
  else if 'A' ≤ c ∧ c ≤ 'F' then some (c.toNat - 55)
  else none

/-- Body of a JSON string literal after the opening quote: returns the
unescaped characters and the remainder after the closing quote. -/
def parseStringBody : List Char → Option (List Char × List Char)
  | [] => none
  | '\"' :: t => some ([], t)
  | '\\' :: e :: t =>
    if e = '\"' then (parseStringBody t).map (fun r => ('\"' :: r.1, r.2))
    else if e = '\\' then (parseStringBody t).map (fun r => ('\\' :: r.1, r.2))
    else if e = '/' then (parseStringBody t).map (fun r => ('/' :: r.1, r.2))
    else if e = 'b' then (parseStringBody t).map (fun r => ('\x08' :: r.1, r.2))
    else if e = 'f' then (parseStringBody t).map (fun r => ('\x0c' :: r.1, r.2))
    else if e = 'n' then (parseStringBody t).map (fun r => ('\n' :: r.1, r.2))
    else if e = 'r' then (parseStringBody t).map (fun r => ('\r' :: r.1, r.2))
    else if e = 't' then (parseStringBody t).map (fun r => ('\t' :: r.1, r.2))
    else if e = 'u' then
      match t with
      | h1 :: h2 :: h3 :: h4 :: t2 =>
        match hexValOfChar h1, hexValOfChar h2, hexValOfChar h3,
            hexValOfChar h4 with
        | some a, some b, some c, some d =>
          (parseStringBody t2).map (fun r =>
            (Char.ofNat (a * 4096 + b * 256 + c * 16 + d) :: r.1, r.2))
        | _, _, _, _ => none
      | _ => none
    else none
  | c :: t => (parseStringBody t).map (fun r => (c :: r.1, r.2))

/-- A run of decimal digits as a natural number, with the remainder. -/
def parseDigitsNat (cs : List Char) : Option (Nat × List Char) :=
  let ds := cs.takeWhile Char.isDigit
  if ds.isEmpty then none else some (parseNatDigits ds, cs.drop ds.length)

mutual

/-- One JSON value (fuel-indexed recursive descent). -/
def parseJsonVal : Nat → List Char → Option (Json × List Char)
  | 0, _ => none
  | _ + 1, [] => none
  | fuel + 1, c :: t =>
    if c = 'n' then
      match t with
      | 'u' :: 'l' :: 'l' :: t2 => some (Json.null, t2)
      | _ => none
    else if c = 't' then
      match t with
      | 'r' :: 'u' :: 'e' :: t2 => some (Json.boolean true, t2)
      | _ => none
    else if c = 'f' then
      match t with
      | 'a' :: 'l' :: 's' :: 'e' :: t2 => some (Json.boolean false, t2)
      | _ => none
    else if c = '\"' then
      (parseStringBody t).map (fun r => (Json.str r.1, r.2))
    else if c = '-' then
      (parseDigitsNat t).map (fun r => (Json.num (-(r.1 : Int)), r.2))
    else if c.isDigit then
      (parseDigitsNat (c :: t)).map (fun r => (Json.num (r.1 : Int), r.2))
    else if c = '[' then
      match skipWs t with
      | ']' :: t2 => some (Json.arr [], t2)
      | t1 => (parseJsonElems fuel t1).map (fun r => (Json.arr r.1, r.2))
    else if c = '\x7b' then
      match skipWs t with
      | '\x7d' :: t2 => some (Json.obj [], t2)
      | t1 => (parseJsonFields fuel t1).map (fun r => (Json.obj r.1, r.2))
    else none

/-- One or more comma-separated array elements up to `]`. -/
def parseJsonElems : Nat → List Char → Option (List Json × List Char)
  | 0, _ => none
  | fuel + 1, cs =>
    match parseJsonVal fuel (skipWs cs) with
    | none => none
    | some (v, rest) =>
      match skipWs rest with
      | ',' :: rest2 => (parseJsonElems fuel rest2).map (fun r => (v :: r.1, r.2))
      | ']' :: rest2 => some ([v], rest2)
      | _ => none

/-- One or more comma-separated object fields up to the closing
brace. -/
def parseJsonFields : Nat → List Char →
    Option (List (List Char × Json) × List Char)
  | 0, _ => none
  | fuel + 1, cs =>
    match skipWs cs with
    | '\"' :: t =>
      match parseStringBody t with
      | none => none
      | some (k, rest) =>
        match skipWs rest with
        | ':' :: rest2 =>
          match parseJsonVal fuel (skipWs rest2) with
          | none => none
          | some (v, rest3) =>
            match skipWs rest3 with
            | ',' :: rest4 =>
              (parseJsonFields fuel rest4).map (fun r => ((k, v) :: r.1, r.2))
            | '\x7d' :: rest4 => some ([(k, v)], rest4)
            | _ => none
        | _ => none
    | _ => none

end

/-- `JSON.parse` on one document: a single value with only trailing
whitespace allowed. -/
def parseJson (s : List Char) : Option Json :=
  match parseJsonVal (s.length + 1) (skipWs s) with
  | none => none
  | some (j, rest) => if (skipWs rest).isEmpty then some j else none

/-- The header/body separator `\r\n\r\n`. -/
def lspSeparator : List Char := ['\r', '\n', '\r', '\n']

/-- The `while (true)` loop of `LSPConnection.handleIncomingData`,
operating on the accumulated buffer: splits off complete frames,
parses each payload (frames whose payload fails to parse are dropped
with an error log), skips headers lacking `Content-Length`, and stops
when no separator is present or the declared length exceeds the
buffered remainder.  Fuel decreases once per iteration; every
iteration consumes at least 4 characters, so `buffer.length` fuel is
never exhausted. -/
def lspProcessBuffer : Nat → List Char → List Json × List Char
  | 0, buffer => ([], buffer)
  | fuel + 1, buffer =>
    match indexOfSeq buffer lspSeparator with
    | none => ([], buffer)
    | some headerEnd =>
      let header := buffer.take headerEnd
      match contentLengthOf header with
      | none => lspProcessBuffer fuel (buffer.drop (headerEnd + 4))
      | some contentLength =>
        let messageStart := headerEnd + 4
        if buffer.length < messageStart + contentLength then ([], buffer)
        else
          let content := (buffer.drop messageStart).take contentLength
          let rest := buffer.drop (messageStart + contentLength)
          let r := lspProcessBuffer fuel rest
          match parseJson content with
          | some j => (j :: r.1, r.2)
          | none => r

/-- `LSPConnection.handleIncomingData(chunk)` given the buffered
leftover `buffer`: returns the decoded messages (in order) and the new
buffer contents. -/
def handleIncomingData (buffer chunk : List Char) : List Json × List Char :=
  lspProcessBuffer (buffer ++ chunk).length (buffer ++ chunk)

/-! ## URI / path conversion (tsserver-proxy.js)

`filePathToUri` is `'file://' + encodeURI(path.resolve(filePath)
.replace(/\\\\/g, '/'))` (with `null` for an empty path);
`uriToFilePath` is `decodeURIComponent(uri.replace('file://', ''))`.
`encodeURI` and `decodeURIComponent` are modelled after their ECMA-262
definitions: `encodeURI` leaves alphanumerics, the marks
`- _ . ! ~ * ' ( )`, the reserved set `; / ? : @ & = + $ ,` and `#`
unescaped and percent-encodes the UTF-8 bytes of every other
character with upper-case hex; `decodeURIComponent` decodes every
escape cluster (its reserved set is empty) and throws `URIError`
(here: `none`) on malformed or non-UTF-8 escapes. -/

/-- UTF-8 encoding of one scalar value. -/
def utf8Bytes (c : Char) : List Nat :=
  if c.toNat < 128 then [c.toNat]
  else if c.toNat < 2048 then [192 + c.toNat / 64, 128 + c.toNat % 64]
  else if c.toNat < 65536 then
    [224 + c.toNat / 4096, 128 + (c.toNat / 64) % 64, 128 + c.toNat % 64]
  else
    [240 + c.toNat / 262144, 128 + (c.toNat / 4096) % 64,
      128 + (c.toNat / 64) % 64, 128 + c.toNat % 64]

/-- Upper-case hexadecimal digit, as emitted by `encodeURI`. -/
def hexDigitUpper (n : Nat) : Char :=
  if n < 10 then Char.ofNat (48 + n) else Char.ofNat (55 + n)

/-- `%XX` escape of one byte. -/
def percentByte (b : Nat) : List Char :=
  ['%', hexDigitUpper (b / 16), hexDigitUpper (b % 16)]

/-- The `uriMark` characters of ECMA-262. -/
def uriMarks : List Char := ['-', '_', '.', '!', '~', '*', '\x27', '(', ')']

/-- The `uriReserved` characters of ECMA-262. -/
def uriReservedChars : List Char :=
  [';', '/', '?', ':', '@', '&', '=', '+', '$', ',']

/-- The set of characters `encodeURI` leaves unescaped:
`uriReserved ∪ uriUnescaped ∪ '#'`. -/
def encodeURIUnescaped (c : Char) : Bool :=
  c.isAlpha || c.isDigit || uriMarks.contains c ||
    uriReservedChars.contains c || c == '#'

/-- `encodeURI` on one character. -/
def encodeURIChar (c : Char) : List Char :=
  if encodeURIUnescaped c then [c]
  else ((utf8Bytes c).map percentByte).flatten

/-- `encodeURI`. -/
def encodeURI (s : List Char) : List Char :=
  (s.map encodeURIChar).flatten

/-- Two hex digits to a byte. -/
def hexByte (h1 h2 : Char) : Option Nat :=
  match hexValOfChar h1, hexValOfChar h2 with
  | some a, some b => some (a * 16 + b)
  | _, _ => none

/-- One escape cluster of the ECMA-262 `Decode` operation, after the
leading `%` has been consumed: reads the first byte and, when it is a
multi-byte UTF-8 lead, the following `%XX` continuations; returns the
decoded character and the number of characters consumed.  Overlong
forms, surrogate values, out-of-range values and malformed escapes are
`URIError`s (`none`). -/
def decodeCluster : List Char → Option (Char × Nat)
  | h1 :: h2 :: rest =>
    match hexByte h1 h2 with
    | none => none
    | some b0 =>
      if b0 < 128 then some (Char.ofNat b0, 2)
      else if b0 < 194 then none
      else if b0 < 224 then
        match rest with
        | '%' :: h3 :: h4 :: _ =>
          match hexByte h3 h4 with
          | some b1 =>
            if 128 ≤ b1 ∧ b1 < 192 then
              some (Char.ofNat ((b0 - 192) * 64 + (b1 - 128)), 5)
            else none
          | none => none
        | _ => none
      else if b0 < 240 then
        match rest with
        | '%' :: h3 :: h4 :: '%' :: h5 :: h6 :: _ =>
          match hexByte h3 h4, hexByte h5 h6 with
          | some b1, some b2 =>
            if 128 ≤ b1 ∧ b1 < 192 ∧ 128 ≤ b2 ∧ b2 < 192 then
              if 2048 ≤ (b0 - 224) * 4096 + (b1 - 128) * 64 + (b2 - 128) ∧
                  ((b0 - 224) * 4096 + (b1 - 128) * 64 + (b2 - 128) < 55296 ∨
                    57344 ≤ (b0 - 224) * 4096 + (b1 - 128) * 64 + (b2 - 128)) then
                some (Char.ofNat ((b0 - 224) * 4096 + (b1 - 128) * 64 + (b2 - 128)), 8)
              else none
            else none
          | _, _ => none
        | _ => none
      else if b0 < 245 then
        match rest with
        | '%' :: h3 :: h4 :: '%' :: h5 :: h6 :: '%' :: h7 :: h8 :: _ =>
          match hexByte h3 h4, hexByte h5 h6, hexByte h7 h8 with
          | some b1, some b2, some b3 =>
            if 128 ≤ b1 ∧ b1 < 192 ∧ 128 ≤ b2 ∧ b2 < 192 ∧
                128 ≤ b3 ∧ b3 < 192 then
              if 65536 ≤ (b0 - 240) * 262144 + (b1 - 128) * 4096 +
                    (b2 - 128) * 64 + (b3 - 128) ∧
                  (b0 - 240) * 262144 + (b1 - 128) * 4096 +
                    (b2 - 128) * 64 + (b3 - 128) < 1114112 then
                some (Char.ofNat ((b0 - 240) * 262144 + (b1 - 128) * 4096 +
                  (b2 - 128) * 64 + (b3 - 128)), 11)
              else none
            else none
          | _, _, _ => none
        | _ => none
      else none
  | _ => none

/-- The ECMA-262 `Decode` loop with an empty reserved set
(`decodeURIComponent`): ordinary characters pass through, each `%`
starts an escape cluster.  The fuel argument only drives the
recursion; one unit is spent per decoded character and every character
of the input costs at least one unit of it, so any fuel of at least
the input length gives the same result. -/
def decodeURIChars : Nat → List Char → Option (List Char)
  | _, [] => some []
  | 0, _ :: _ => none
  | fuel + 1, c :: rest =>
    if c = '%' then
      match decodeCluster rest with
      | none => none
      | some (ch, k) => (decodeURIChars fuel (rest.drop k)).map (ch :: ·)
    else (decodeURIChars fuel rest).map (c :: ·)

/-- JavaScript's `decodeURIComponent`. -/
def decodeURIComponentChars (s : List Char) : Option (List Char) :=
  decodeURIChars s.length s

/-- `.replace(/\\\\/g, '/')`: every backslash becomes a forward
slash. -/
def mapSlash (s : List Char) : List Char :=
  s.map (fun c => if c = '\\' then '/' else c)

/-- Split a path on `/`. -/
def splitSegs : List Char → List (List Char)
  | [] => [[]]
  | c :: t =>
    let r := splitSegs t
    if c = '/' then [] :: r
    else (c :: r.headD []) :: r.tail

/-- Normalization pass of POSIX `path.resolve`: drop empty and `.`
segments, let `..` pop the previous segment (a `..` at the root is
dropped). -/
def normalizeSegs : List (List Char) → List (List Char) → List (List Char)
  | acc, [] => acc.reverse
  | acc, s :: rest =>
    if s = [] ∨ s = ['.'] then normalizeSegs acc rest
    else if s = ['.', '.'] then normalizeSegs (acc.drop 1) rest
    else normalizeSegs (s :: acc) rest

/-- POSIX `path.resolve` of one path against the working directory
`cwd` (itself absolute): relative paths are joined to `cwd`, then the
result is normalized. -/
def resolvePosix (cwd p : List Char) : List Char :=
  let full := if p.headD ' ' = '/' then p else cwd ++ '/' :: p
  '/' :: List.intercalate ['/'] (normalizeSegs [] (splitSegs full))

/-- The `'file://'` scheme literal. -/
def fileScheme : List Char := "file://".data

/-- `TSServerProxy.filePathToUri`: `null` for a falsy (empty) path,
otherwise `'file://' + encodeURI(resolved path with backslashes
replaced)`. -/
def filePathToUri (cwd filePath : List Char) : Option (List Char) :=
  if filePath.isEmpty then none
  else some (fileScheme ++ encodeURI (mapSlash (resolvePosix cwd filePath)))

/-- `String.prototype.replace` with a plain-string pattern: replaces
only the first occurrence. -/
def replaceFirst (s pat repl : List Char) : List Char :=
  match indexOfSeq s pat with
  | none => s
  | some i => s.take i ++ repl ++ s.drop (i + pat.length)

/-- `TSServerProxy.uriToFilePath`:
`decodeURIComponent(uri.replace('file://', ''))`, with a `URIError`
modelled as `none`. -/
def uriToFilePath (uri : List Char) : Option (List Char) :=
  decodeURIComponentChars (replaceFirst uri fileScheme [])

/-! ## Auxiliary lemmas -/

/-- A key absent from every pair of an association list looks up to
`none`. -/
theorem lookup_eq_none_of_forall_ne {β : Type} (l : List (Nat × β)) (k : Nat)
    (h : ∀ p ∈ l, p.1 ≠ k) : l.lookup k = none := by
  induction l with
  | nil => rfl
  | cons a t ih =>
    obtain ⟨a1, a2⟩ := a
    have ha : a1 ≠ k := h (a1, a2) (List.mem_cons_self _ t)
    have hk : (k == a1) = false := by
      simp only [beq_eq_false_iff_ne, ne_eq]
      exact fun hkk => ha hkk.symm
    simp only [List.lookup, hk]
    exact ih fun p hp => h p (List.mem_cons_of_mem _ hp)

/-- A successful lookup means the key occurs in the association list. -/
theorem mem_of_lookup_eq_some {β : Type} {l : List (Nat × β)} {k : Nat}
    {v : β} (h : l.lookup k = some v) : k ∈ l.map (·.1) := by
  induction l with
  | nil => simp [List.lookup] at h
  | cons a t ih =>
    obtain ⟨a1, a2⟩ := a
    by_cases hk : k = a1
    · simp [hk]
    · have hb : (k == a1) = false := by simp [hk]
      simp only [List.lookup, hb] at h
      simp [ih h]

/-- Filtering out a key leaves lookups of other keys unchanged. -/
theorem lookup_filter_ne {β : Type} (l : List (Nat × β)) (seq j : Nat)
    (hj : j ≠ seq) :
    (l.filter (fun kv => kv.1 != seq)).lookup j = l.lookup j := by
  induction l with
  | nil => rfl
  | cons a t ih =>
    obtain ⟨a1, a2⟩ := a
    by_cases ha : a1 = seq
    · have h1 : ((a1, a2).1 != seq) = false := by simp [bne, ha]
      have h2 : (j == a1) = false := by
        simp only [beq_eq_false_iff_ne, ne_eq]
        exact fun hja => hj (ha ▸ hja)
      simp only [List.filter, h1, List.lookup, h2, ih]
    · have h1 : ((a1, a2).1 != seq) = true := by simp [bne, ha]
      simp only [List.filter, h1, List.lookup, ih]

/-- After filtering out `seq`, `seq` is no longer among the keys. -/
theorem not_mem_keys_filter {β : Type} (l : List (Nat × β)) (seq : Nat) :
    seq ∉ (l.filter (fun kv => kv.1 != seq)).map (·.1) := by
  intro hmem
  rcases List.mem_map.mp hmem with ⟨kv, hkv, hfst⟩
  have := List.of_mem_filter hkv
  simp [bne, hfst] at this

/-- Keys of a filtered association list are keys of the original. -/
theorem keys_filter_subset {β : Type} (l : List (Nat × β))
    (p : Nat × β → Bool) : ∀ k ∈ (l.filter p).map (·.1), k ∈ l.map (·.1) := by
  intro k hk
  exact ((List.filter_sublist l).map (·.1)).subset hk

/-- Key list of a filtered association list is a sublist of the original
key list, so `Nodup` is inherited. -/
theorem keys_filter_nodup {β : Type} (l : List (Nat × β))
    (p : Nat × β → Bool) (h : (l.map (·.1)).Nodup) :
    ((l.filter p).map (·.1)).Nodup :=
  h.sublist ((List.filter_sublist l).map (·.1))

/-- Fold preservation: a property preserved by each application of `f`
is preserved by `List.foldl f`. -/
theorem foldl_preserves {σ α : Type} (P : σ → Prop) (f : σ → α → σ)
    (hf : ∀ s a, P s → P (f s a)) :
    ∀ (l : List α) (s : σ), P s → P (l.foldl f s)
  | [], _, h => h
  | a :: l, s, h => foldl_preserves P f hf l (f s a) (hf s a h)

/-- `sendTSServerRequest` either leaves the state unchanged (guard
rejection) or performs exactly the registration update. -/
theorem send_shape (s : ProxyState) (c : String) :
    (sendTSServerRequest s c).1 = s ∨
    (sendTSServerRequest s c).1 =
      { s with
          requestId := s.requestId + 1
          written := s.written ++
            [{ seq := s.requestId + 1, command := c, pid := s.tsserver.getD 0 }]
          pending := s.pending ++
            [(s.requestId + 1, { command := c, createdAt := s.now })]
          assigned := s.assigned ++ [s.requestId + 1] } := by
  unfold sendTSServerRequest
  cases htv : s.tsserver with
  | none => left; rfl
  | some pid =>
    by_cases hr : s.isRestarting
    · left; simp [hr]
    · right; simp [hr]

/-! ## The correlator invariants -/

/-- Correlator bookkeeping invariant, maintained by every event-loop
callback: pending and assigned ids never exceed `requestId`, key lists
are duplicate-free, assignment order is strictly increasing, and a
settled id is never simultaneously pending. -/
structure Inv (s : ProxyState) : Prop where
  pending_le : ∀ i ∈ pendingIds s, i ≤ s.requestId
  pending_nodup : (pendingIds s).Nodup
  assigned_le : ∀ i ∈ s.assigned, i ≤ s.requestId
  assigned_sorted : s.assigned.Pairwise (· < ·)
  settled_le : ∀ e ∈ s.settled, e.seq ≤ s.requestId
  settled_nodup : (s.settled.map (·.seq)).Nodup
  settled_pend : ∀ e ∈ s.settled, e.seq ∉ pendingIds s

/-- `Inv` only depends on the correlator fields. -/
theorem inv_of_eq_core {s t : ProxyState}
    (hp : t.pending = s.pending) (hr : t.requestId = s.requestId)
    (ha : t.assigned = s.assigned) (hs : t.settled = s.settled)
    (h : Inv s) : Inv t := by
  constructor
  · intro i hi
    rw [hr]
    exact h.pending_le i (by rwa [pendingIds, hp] at hi)
  · rw [pendingIds, hp]; exact h.pending_nodup
  · intro i hi; rw [hr]; exact h.assigned_le i (ha ▸ hi)
  · rw [ha]; exact h.assigned_sorted
  · intro e he; rw [hr]; exact h.settled_le e (hs ▸ he)
  · rw [hs]; exact h.settled_nodup
  · intro e he
    rw [pendingIds, hp]
    exact h.settled_pend e (hs ▸ he)

/-- `sendTSServerRequest` preserves the correlator invariant. -/
theorem inv_send (s : ProxyState) (c : String) (h : Inv s) :
    Inv (sendTSServerRequest s c).1 := by
  rcases send_shape s c with hsh | hsh
  · rw [hsh]; exact h
  · rw [hsh]
    constructor
    · intro i hi
      dsimp only [pendingIds] at hi ⊢
      simp only [List.map_append, List.mem_append, List.map_cons,
        List.map_nil, List.mem_singleton] at hi
      rcases hi with hi | hi
      · have := h.pending_le i hi
        omega
      · omega
    · dsimp only [pendingIds]
      simp only [List.map_append, List.map_cons, List.map_nil]
      apply List.Nodup.append h.pending_nodup (by simp)
      intro x hx hy
      have := h.pending_le x hx
      simp only [List.mem_singleton] at hy
      omega
    · intro i hi
      dsimp only at hi ⊢
      simp only [List.mem_append, List.mem_singleton] at hi
      rcases hi with hi | hi
      · have := h.assigned_le i hi
        omega
      · omega
    · dsimp only
      rw [List.pairwise_append]
      refine ⟨h.assigned_sorted, by simp, ?_⟩
      intro a ha b hb
      have := h.assigned_le a ha
      simp only [List.mem_singleton] at hb
      omega
    · intro e he
      dsimp only at he ⊢
      have := h.settled_le e he
      omega
    · exact h.settled_nodup
    · intro e he
      dsimp only [pendingIds] at he ⊢
      simp only [List.map_append, List.mem_append, List.map_cons,
        List.map_nil, List.mem_singleton]
      push_neg
      refine ⟨h.settled_pend e he, ?_⟩
      have := h.settled_le e he
      omega

/-- `openFile` preserves the correlator invariant. -/
theorem inv_openFile (s : ProxyState) (uri content : String) (h : Inv s) :
    Inv (openFile s uri content) :=
  inv_send _ _ (inv_of_eq_core (s := s) rfl rfl rfl rfl h)

/-- `updateFile` preserves the correlator invariant. -/
theorem inv_updateFile (s : ProxyState) (uri content : String) (h : Inv s) :
    Inv (updateFile s uri content) :=
  inv_send _ _ (inv_of_eq_core (s := s) rfl rfl rfl rfl h)

/-- `closeFile` preserves the correlator invariant. -/
theorem inv_closeFile (s : ProxyState) (uri : String) (h : Inv s) :
    Inv (closeFile s uri) :=
  inv_send _ _ (inv_of_eq_core (s := s) rfl rfl rfl rfl h)

/-- `_spawnTSServer` preserves the correlator invariant. -/
theorem inv_spawn (s : ProxyState) (h : Inv s) : Inv (spawnTSServer s) := by
  unfold spawnTSServer
  have h1 : Inv (sendTSServerRequest
      { s with tsserver := some s.nextPid, nextPid := s.nextPid + 1,
               liveProcs := s.liveProcs ++ [s.nextPid] } "configure").1 :=
    inv_send _ _ (inv_of_eq_core (s := s) rfl rfl rfl rfl h)
  by_cases hr : (sendTSServerRequest
      { s with tsserver := some s.nextPid, nextPid := s.nextPid + 1,
               liveProcs := s.liveProcs ++ [s.nextPid] } "configure").1.isRestarting
  · rw [if_pos hr]
    have h3 := foldl_preserves Inv (fun acc kv => openFile acc kv.1 kv.2)
      (fun t kv ht => inv_openFile t kv.1 kv.2 ht)
      (sendTSServerRequest
        { s with tsserver := some s.nextPid, nextPid := s.nextPid + 1,
                 liveProcs := s.liveProcs ++ [s.nextPid] } "configure").1.openFiles
      _ h1
    exact inv_of_eq_core (s :=
      ((sendTSServerRequest
        { s with tsserver := some s.nextPid, nextPid := s.nextPid + 1,
                 liveProcs := s.liveProcs ++ [s.nextPid] } "configure").1.openFiles.foldl
          (fun acc kv => openFile acc kv.1 kv.2)
          (sendTSServerRequest
            { s with tsserver := some s.nextPid, nextPid := s.nextPid + 1,
                     liveProcs := s.liveProcs ++ [s.nextPid] } "configure").1))
      rfl rfl rfl rfl h3
  · rw [if_neg hr]
    exact h1

/-- `_handleUnexpectedExit` preserves the correlator invariant. -/
theorem inv_unexpectedExit (s : ProxyState) (h : Inv s) :
    Inv (handleUnexpectedExit s) := by
  unfold handleUnexpectedExit
  by_cases hr : s.isRestarting
  · rw [if_pos hr]; exact h
  · rw [if_neg hr]
    constructor
    · intro i hi; simp [pendingIds] at hi
    · simp [pendingIds]
    · exact h.assigned_le
    · exact h.assigned_sorted
    · intro e he
      simp only [List.mem_append, List.mem_map] at he
      rcases he with he | ⟨kv, hkv, hmk⟩
      · exact h.settled_le e he
      · have hmem : kv.1 ∈ pendingIds s := List.mem_map.mpr ⟨kv, hkv, rfl⟩
        have := h.pending_le kv.1 hmem
        rw [← hmk]
        simpa [mkSettlement] using this
    · simp only [List.map_append]
      apply List.Nodup.append h.settled_nodup
      · have heq : (s.pending.map (fun kv =>
            mkSettlement kv.1 Outcome.processExited kv.2 s.now)).map (·.seq)
            = pendingIds s := by
          simp [pendingIds, List.map_map, mkSettlement, Function.comp]
        rw [heq]
        exact h.pending_nodup
      · intro x hx hy
        rcases List.mem_map.mp hx with ⟨e, he, hseq⟩
        rcases List.mem_map.mp hy with ⟨g, hg, hgx⟩
        rcases List.mem_map.mp hg with ⟨kv, hkv, hmk⟩
        have hk : kv.1 ∈ pendingIds s := List.mem_map.mpr ⟨kv, hkv, rfl⟩
        have hxp : x ∈ pendingIds s := by
          rw [← hgx, ← hmk]
          simpa [mkSettlement] using hk
        exact h.settled_pend e he (hseq ▸ hxp)
    · intro e _
      simp [pendingIds]

/-- The child-process exit handler preserves the correlator invariant. -/
theorem inv_processExit (s : ProxyState) (code : Int) (h : Inv s) :
    Inv (handleProcessExit s code) :=
  inv_unexpectedExit _ (inv_of_eq_core (s := s) rfl rfl rfl rfl h)

/-- `handleTSServerResponse` preserves the correlator invariant. -/
theorem inv_response (s : ProxyState) (seq : Nat) (success : Bool)
    (h : Inv s) : Inv (handleTSServerResponse s seq success) := by
  unfold handleTSServerResponse
  cases hl : s.pending.lookup seq with
  | none => exact h
  | some entry =>
    have hseq : seq ∈ pendingIds s := mem_of_lookup_eq_some hl
    constructor
    · intro i hi
      simp only [pendingIds] at hi
      exact h.pending_le i (keys_filter_subset _ _ i hi)
    · exact keys_filter_nodup _ _ h.pending_nodup
    · exact h.assigned_le
    · exact h.assigned_sorted
    · intro e he
      simp only [List.mem_append, List.mem_singleton] at he
      rcases he with he | he
      · exact h.settled_le e he
      · subst he
        simpa [mkSettlement] using h.pending_le seq hseq
    · simp only [List.map_append, List.map_cons, List.map_nil]
      apply List.Nodup.append h.settled_nodup (by simp)
      intro x hx hy
      simp only [List.mem_singleton, mkSettlement] at hy
      rcases List.mem_map.mp hx with ⟨e, he, hseq2⟩
      exact h.settled_pend e he (by rw [hseq2, hy]; exact hseq)
    · intro e he
      simp only [List.mem_append, List.mem_singleton] at he
      simp only [pendingIds]
      rcases he with he | he
      · intro hmem
        exact h.settled_pend e he (keys_filter_subset _ _ e.seq hmem)
      · subst he
        simp only [mkSettlement]
        exact not_mem_keys_filter s.pending seq

/-- The per-request timeout callback preserves the correlator
invariant. -/
theorem inv_requestTimeout (s : ProxyState) (seq : Nat) (h : Inv s) :
    Inv (fireRequestTimeout s seq) := by
  unfold fireRequestTimeout
  cases hl : s.pending.lookup seq with
  | none => exact h
  | some entry =>
    show Inv (if s.now < entry.createdAt + tsserverRequestTimeout then s
      else { s with
          pending := s.pending.filter (fun kv => kv.1 != seq)
          settled := s.settled ++ [mkSettlement seq Outcome.timeout entry s.now] })
    by_cases ht : s.now < entry.createdAt + tsserverRequestTimeout
    · rw [if_pos ht]; exact h
    · rw [if_neg ht]
      have hseq : seq ∈ pendingIds s := mem_of_lookup_eq_some hl
      constructor
      · intro i hi
        simp only [pendingIds] at hi
        exact h.pending_le i (keys_filter_subset _ _ i hi)
      · exact keys_filter_nodup _ _ h.pending_nodup
      · exact h.assigned_le
      · exact h.assigned_sorted
      · intro e he
        simp only [List.mem_append, List.mem_singleton] at he
        rcases he with he | he
        · exact h.settled_le e he
        · subst he
          simpa [mkSettlement] using h.pending_le seq hseq
      · simp only [List.map_append, List.map_cons, List.map_nil]
        apply List.Nodup.append h.settled_nodup (by simp)
        intro x hx hy
        simp only [List.mem_singleton, mkSettlement] at hy
        rcases List.mem_map.mp hx with ⟨e, he, hseq2⟩
        exact h.settled_pend e he (by rw [hseq2, hy]; exact hseq)
      · intro e he
        simp only [List.mem_append, List.mem_singleton] at he
        simp only [pendingIds]
        rcases he with he | he
        · intro hmem
          exact h.settled_pend e he (keys_filter_subset _ _ e.seq hmem)
        · subst he
          simp only [mkSettlement]
          exact not_mem_keys_filter s.pending seq

/-- `shutdown` preserves the correlator invariant. -/
theorem inv_shutdown (s : ProxyState) (h : Inv s) : Inv (shutdown s) := by
  unfold shutdown
  constructor
  · intro i hi; simp [pendingIds] at hi
  · simp [pendingIds]
  · exact h.assigned_le
  · exact h.assigned_sorted
  · exact h.settled_le
  · exact h.settled_nodup
  · intro e _; simp [pendingIds]

/-- Every event-loop callback preserves the correlator invariant. -/
theorem inv_step (s : ProxyState) (e : ProxyStep) (h : Inv s) :
    Inv (step s e) := by
  cases e with
  | start => exact inv_spawn s h
  | clientSend c => exact inv_send s c h
  | clientOpen uri content => exact inv_openFile s uri content h
  | clientUpdate uri content => exact inv_updateFile s uri content h
  | clientClose uri => exact inv_closeFile s uri h
  | response seq success => exact inv_response s seq success h
  | requestTimeout seq => exact inv_requestTimeout s seq h
  | processExit pid code =>
    simp only [step]
    by_cases hp : pid ∈ s.liveProcs
    · rw [if_pos hp]
      exact inv_processExit _ code (inv_of_eq_core (s := s) rfl rfl rfl rfl h)
    · rw [if_neg hp]; exact h
  | restartTimerFired =>
    simp only [step, fireRestartTimer]
    by_cases hr : s.restartTimer
    · rw [if_pos hr]
      exact inv_spawn _ (inv_of_eq_core (s := s) rfl rfl rfl rfl h)
    · rw [if_neg hr]; exact h
  | shutdown => exact inv_shutdown s h
  | timeAdvance d => exact inv_of_eq_core (s := s) rfl rfl rfl rfl h

/-- The constructor state satisfies the correlator invariant. -/
theorem inv_init : Inv initState := by
  constructor <;> simp [initState, pendingIds]

/-- Every state reachable from the constructor state satisfies the
correlator invariant. -/
theorem inv_run (steps : List ProxyStep) : Inv (run initState steps) :=
  foldl_preserves Inv step inv_step steps initState inv_init

/-! ## Staleness: sequence ids from before a crash never match again -/

/-- State property relative to a crash that happened when the sequence
counter was `n`: the counter never falls below `n` again, and every
pending entry is strictly newer than `n`. -/
def PostCrash (n : Nat) (s : ProxyState) : Prop :=
  n ≤ s.requestId ∧ ∀ i ∈ pendingIds s, n < i

/-- `PostCrash` only depends on `pending` and `requestId`. -/
theorem postCrash_of_eq_core {n : Nat} {s t : ProxyState}
    (hp : t.pending = s.pending) (hr : t.requestId = s.requestId)
    (h : PostCrash n s) : PostCrash n t := by
  obtain ⟨h1, h2⟩ := h
  refine ⟨by rw [hr]; exact h1, ?_⟩
  intro i hi
  exact h2 i (by rwa [pendingIds, hp] at hi)

/-- `sendTSServerRequest` preserves `PostCrash`. -/
theorem postCrash_send (n : Nat) (s : ProxyState) (c : String)
    (h : PostCrash n s) : PostCrash n (sendTSServerRequest s c).1 := by
  obtain ⟨h1, h2⟩ := h
  rcases send_shape s c with hsh | hsh
  · rw [hsh]; exact ⟨h1, h2⟩
  · rw [hsh]
    constructor
    · dsimp only; omega
    · intro i hi
      dsimp only [pendingIds] at hi
      simp only [List.map_append, List.mem_append, List.map_cons,
        List.map_nil, List.mem_singleton] at hi
      rcases hi with hi | hi
      · exact h2 i hi
      · omega

/-- `handleTSServerResponse` preserves `PostCrash`. -/
theorem postCrash_response (n : Nat) (s : ProxyState) (seq : Nat)
    (success : Bool) (h : PostCrash n s) :
    PostCrash n (handleTSServerResponse s seq success) := by
  unfold handleTSServerResponse
  cases hl : s.pending.lookup seq with
  | none => exact h
  | some entry =>
    refine ⟨h.1, ?_⟩
    intro i hi
    dsimp only [pendingIds] at hi
    exact h.2 i (keys_filter_subset _ _ i hi)

/-- The timeout callback preserves `PostCrash`. -/
theorem postCrash_requestTimeout (n : Nat) (s : ProxyState) (seq : Nat)
    (h : PostCrash n s) : PostCrash n (fireRequestTimeout s seq) := by
  unfold fireRequestTimeout
  cases hl : s.pending.lookup seq with
  | none => exact h
  | some entry =>
    show PostCrash n (if s.now < entry.createdAt + tsserverRequestTimeout then s
      else { s with
          pending := s.pending.filter (fun kv => kv.1 != seq)
          settled := s.settled ++ [mkSettlement seq Outcome.timeout entry s.now] })
    by_cases ht : s.now < entry.createdAt + tsserverRequestTimeout
    · rw [if_pos ht]; exact h
    · rw [if_neg ht]
      refine ⟨h.1, ?_⟩
      intro i hi
      dsimp only [pendingIds] at hi
      exact h.2 i (keys_filter_subset _ _ i hi)

/-- `_handleUnexpectedExit` preserves `PostCrash`. -/
theorem postCrash_unexpectedExit (n : Nat) (s : ProxyState)
    (h : PostCrash n s) : PostCrash n (handleUnexpectedExit s) := by
  unfold handleUnexpectedExit
  by_cases hr : s.isRestarting
  · rw [if_pos hr]; exact h
  · rw [if_neg hr]
    refine ⟨h.1, ?_⟩
    intro i hi
    simp [pendingIds] at hi

/-- `openFile` preserves `PostCrash`. -/
theorem postCrash_openFile (n : Nat) (s : ProxyState) (uri content : String)
    (h : PostCrash n s) : PostCrash n (openFile s uri content) :=
  postCrash_send n _ _ (postCrash_of_eq_core (s := s) rfl rfl h)

/-- `_spawnTSServer` preserves `PostCrash`. -/
theorem postCrash_spawn (n : Nat) (s : ProxyState) (h : PostCrash n s) :
    PostCrash n (spawnTSServer s) := by
  unfold spawnTSServer
  have h1 : PostCrash n (sendTSServerRequest
      { s with tsserver := some s.nextPid, nextPid := s.nextPid + 1,
               liveProcs := s.liveProcs ++ [s.nextPid] } "configure").1 :=
    postCrash_send n _ _ (postCrash_of_eq_core (s := s) rfl rfl h)
  by_cases hr : (sendTSServerRequest
      { s with tsserver := some s.nextPid, nextPid := s.nextPid + 1,
               liveProcs := s.liveProcs ++ [s.nextPid] } "configure").1.isRestarting
  · rw [if_pos hr]
    have h3 := foldl_preserves (PostCrash n) (fun acc kv => openFile acc kv.1 kv.2)
      (fun t kv ht => postCrash_openFile n t kv.1 kv.2 ht)
      (sendTSServerRequest
        { s with tsserver := some s.nextPid, nextPid := s.nextPid + 1,
                 liveProcs := s.liveProcs ++ [s.nextPid] } "configure").1.openFiles
      _ h1
    exact postCrash_of_eq_core (s :=
      ((sendTSServerRequest
        { s with tsserver := some s.nextPid, nextPid := s.nextPid + 1,
                 liveProcs := s.liveProcs ++ [s.nextPid] } "configure").1.openFiles.foldl
          (fun acc kv => openFile acc kv.1 kv.2)
          (sendTSServerRequest
            { s with tsserver := some s.nextPid, nextPid := s.nextPid + 1,
                     liveProcs := s.liveProcs ++ [s.nextPid] } "configure").1))
      rfl rfl h3
  · rw [if_neg hr]
    exact h1

/-- Every event-loop callback preserves `PostCrash`. -/
theorem postCrash_step (n : Nat) (s : ProxyState) (e : ProxyStep)
    (h : PostCrash n s) : PostCrash n (step s e) := by
  cases e with
  | start => exact postCrash_spawn n s h
  | clientSend c => exact postCrash_send n s c h
  | clientOpen uri content => exact postCrash_openFile n s uri content h
  | clientUpdate uri content =>
    exact postCrash_send n _ _ (postCrash_of_eq_core (s := s) rfl rfl h)
  | clientClose uri =>
    exact postCrash_send n _ _ (postCrash_of_eq_core (s := s) rfl rfl h)
  | response seq success => exact postCrash_response n s seq success h
  | requestTimeout seq => exact postCrash_requestTimeout n s seq h
  | processExit pid code =>
    simp only [step]
    by_cases hp : pid ∈ s.liveProcs
    · rw [if_pos hp]
      exact postCrash_unexpectedExit n _
        (postCrash_of_eq_core (s := s) rfl rfl h)
    · rw [if_neg hp]; exact h
  | restartTimerFired =>
    simp only [step, fireRestartTimer]
    by_cases hr : s.restartTimer
    · rw [if_pos hr]
      exact postCrash_spawn n _ (postCrash_of_eq_core (s := s) rfl rfl h)
    · rw [if_neg hr]; exact h
  | shutdown =>
    refine ⟨h.1, ?_⟩
    intro i hi
    simp [step, shutdown, pendingIds] at hi
  | timeAdvance d => exact postCrash_of_eq_core (s := s) rfl rfl h

/-- `PostCrash` is preserved along any run. -/
theorem postCrash_run (n : Nat) (s : ProxyState) (steps : List ProxyStep)
    (h : PostCrash n s) : PostCrash n (run s steps) :=
  foldl_preserves (PostCrash n) step (postCrash_step n) steps s h

/-! ## Claim theorems for the supervisor / correlator -/

/-- C1: the claim says that after a crash, once the cool-down elapses
and the backend is respawned, every open-document snapshot is replayed
as a fresh open request to the new instance before `restarted` is
emitted.  The code violates this: `isRestarting` is still `true` while
the replay loop runs, so every replayed `openFile`'s
`sendTSServerRequest` is rejected by its own guard and nothing at all
is written to the new process — yet `restarted` is still emitted.  This
theorem evaluates the code at the failing input (two open documents, a
crash, and the restart timer firing). -/
theorem C1_restart_replay_never_reaches_backend :
    (let s1 := run initState [ProxyStep.start,
        ProxyStep.clientOpen "file:///a.ts" "A",
        ProxyStep.clientOpen "file:///b.ts" "B",
        ProxyStep.processExit 0 1];
     let s2 := step s1 ProxyStep.restartTimerFired;
     s1.isRestarting = true ∧
     s1.openFiles = [("file:///a.ts", "A"), ("file:///b.ts", "B")] ∧
     s2.tsserver = some 1 ∧
     s2.written.filter (fun w => w.pid == 1) = [] ∧
     s2.events = [ProxyEvent.exited 1, ProxyEvent.restarting,
       ProxyEvent.restarted] ∧
     s2.isRestarting = false) := by
  decide

/-- C2: when the backend exits unexpectedly with requests pending, every
pending request is rejected in that same callback (one scheduler tick)
with the same backend-unavailable error (`'TSServer process exited.'`),
the table is cleared, and no later response carrying a pre-crash
sequence id is ever delivered to an entry registered after the crash:
the sequence counter is never reset, so post-crash entries always bear
strictly larger ids and a stale id looks up to nothing. -/
theorem C2_crash_cancellation (s : ProxyState) (pid : Nat) (code : Int)
    (hR : s.isRestarting = false) (hpid : pid ∈ s.liveProcs) :
    (step s (ProxyStep.processExit pid code)).pending = [] ∧
    (step s (ProxyStep.processExit pid code)).settled =
      s.settled ++ s.pending.map (fun kv =>
        mkSettlement kv.1 Outcome.processExited kv.2 s.now) ∧
    ∀ (steps : List ProxyStep) (r : Nat) (succ : Bool), r ≤ s.requestId →
      step (run (step s (ProxyStep.processExit pid code)) steps)
          (ProxyStep.response r succ)
        = run (step s (ProxyStep.processExit pid code)) steps := by
  have hc : step s (ProxyStep.processExit pid code) =
      { s with
          liveProcs := s.liveProcs.filter (· != pid)
          tsserver := none
          events := (s.events ++ [ProxyEvent.exited code]) ++
            [ProxyEvent.restarting]
          isRestarting := true
          settled := s.settled ++ s.pending.map (fun kv =>
            mkSettlement kv.1 Outcome.processExited kv.2 s.now)
          pending := []
          restartTimer := true } := by
    simp only [step]
    rw [if_pos hpid]
    unfold handleProcessExit handleUnexpectedExit
    rw [if_neg (by simp [hR])]
  refine ⟨by rw [hc], by rw [hc], ?_⟩
  intro steps r succ hr
  have hpc : PostCrash s.requestId (step s (ProxyStep.processExit pid code)) := by
    rw [hc]
    exact ⟨le_refl _, by intro i hi; simp [pendingIds] at hi⟩
  have hpc2 : PostCrash s.requestId
      (run (step s (ProxyStep.processExit pid code)) steps) :=
    postCrash_run _ _ steps hpc
  have hnone : (run (step s (ProxyStep.processExit pid code)) steps).pending.lookup r
      = none := by
    apply lookup_eq_none_of_forall_ne
    intro p hp
    have := hpc2.2 p.1 (List.mem_map.mpr ⟨p, hp, rfl⟩)
    omega
  show handleTSServerResponse
    (run (step s (ProxyStep.processExit pid code)) steps) r succ
    = run (step s (ProxyStep.processExit pid code)) steps
  unfold handleTSServerResponse
  rw [hnone]

/-- Witness for C2 at a concrete crash: two pending requests
(`configure`, `completionInfo`) and process 0 exiting; afterwards a
respawn and a new request happen and the stale response for pre-crash
sequence id 2 is a no-op. -/
theorem C2_crash_cancellation_witness :
    (run initState [ProxyStep.start,
        ProxyStep.clientSend "completionInfo"]).isRestarting = false ∧
    0 ∈ (run initState [ProxyStep.start,
        ProxyStep.clientSend "completionInfo"]).liveProcs ∧
    (step (run initState [ProxyStep.start,
        ProxyStep.clientSend "completionInfo"])
      (ProxyStep.processExit 0 1)).pending = [] ∧
    step (run (step (run initState [ProxyStep.start,
          ProxyStep.clientSend "completionInfo"])
        (ProxyStep.processExit 0 1))
        [ProxyStep.restartTimerFired, ProxyStep.clientSend "quickinfo"])
        (ProxyStep.response 2 true)
      = run (step (run initState [ProxyStep.start,
          ProxyStep.clientSend "completionInfo"])
        (ProxyStep.processExit 0 1))
        [ProxyStep.restartTimerFired, ProxyStep.clientSend "quickinfo"] :=
  ⟨by decide, by decide,
   (C2_crash_cancellation _ 0 1 (by decide) (by decide)).1,
   (C2_crash_cancellation _ 0 1 (by decide) (by decide)).2.2
     [ProxyStep.restartTimerFired, ProxyStep.clientSend "quickinfo"] 2 true
     (by decide)⟩

/-- C3: the claim says that after `shutdown()` the session is inert: no
recovery events and no automatic restart ever.  The code violates this:
`shutdown` kills the process but leaves the exit handler attached and
sets no flag, so the killed process's exit event runs
`_handleUnexpectedExit`, which emits `'restarting'` and arms the
5-second restart timer, and when that timer fires the backend is
respawned.  This theorem evaluates the code at the failing input
(shutdown of a running session, then the delivery of the exit event and
the timer). -/
theorem C3_shutdown_triggers_restart :
    (let sDown := run initState [ProxyStep.start, ProxyStep.shutdown];
     let sExit := step sDown (ProxyStep.processExit 0 0);
     let sFinal := step sExit ProxyStep.restartTimerFired;
     sDown.tsserver = none ∧ sDown.pending = [] ∧ sDown.events = [] ∧
     sExit.events = [ProxyEvent.exited 0, ProxyEvent.restarting] ∧
     sExit.restartTimer = true ∧
     sFinal.tsserver = some 1) := by
  decide

/-- C4 (amended): every send registers a pending entry with the same
fixed 30-second deadline regardless of command class; the timeout
callback fires no earlier than that deadline, rejects exactly that
request with a timeout error, removes its entry, and leaves every other
pending entry untouched. -/
theorem C4_timeout_isolation (s : ProxyState) (seq : Nat)
    (entry : PendingEntry)
    (hmem : s.pending.lookup seq = some entry)
    (helapsed : entry.createdAt + tsserverRequestTimeout ≤ s.now) :
    tsserverRequestTimeout = 30000 ∧
    (fireRequestTimeout s seq).settled
      = s.settled ++ [mkSettlement seq Outcome.timeout entry s.now] ∧
    seq ∉ pendingIds (fireRequestTimeout s seq) ∧
    entry.createdAt + tsserverRequestTimeout
      ≤ (mkSettlement seq Outcome.timeout entry s.now).settledAt ∧
    ∀ j, j ≠ seq →
      (fireRequestTimeout s seq).pending.lookup j = s.pending.lookup j := by
  have hite : ¬ s.now < entry.createdAt + tsserverRequestTimeout :=
    Nat.not_lt.mpr helapsed
  have hfe : fireRequestTimeout s seq = { s with
      pending := s.pending.filter (fun kv => kv.1 != seq)
      settled := s.settled ++ [mkSettlement seq Outcome.timeout entry s.now] } := by
    unfold fireRequestTimeout
    rw [hmem]
    exact if_neg hite
  refine ⟨rfl, by rw [hfe], ?_, helapsed, ?_⟩
  · rw [hfe]
    exact not_mem_keys_filter s.pending seq
  · intro j hj
    rw [hfe]
    exact lookup_filter_ne s.pending seq j hj

/-- Witness for C4: a `completionInfo` request registered at time 0
times out once the clock reaches 30000; the concurrently pending
`configure` request (sequence id 1) is unaffected. -/
theorem C4_timeout_isolation_witness :
    (run initState [ProxyStep.start, ProxyStep.clientSend "completionInfo",
        ProxyStep.timeAdvance 30000]).pending.lookup 2
      = some { command := "completionInfo", createdAt := 0 } ∧
    ({ command := "completionInfo", createdAt := 0 } : PendingEntry).createdAt
        + tsserverRequestTimeout
      ≤ (run initState [ProxyStep.start, ProxyStep.clientSend "completionInfo",
        ProxyStep.timeAdvance 30000]).now ∧
    tsserverRequestTimeout = 30000 ∧
    2 ∉ pendingIds (fireRequestTimeout
      (run initState [ProxyStep.start, ProxyStep.clientSend "completionInfo",
        ProxyStep.timeAdvance 30000]) 2) ∧
    (fireRequestTimeout
        (run initState [ProxyStep.start, ProxyStep.clientSend "completionInfo",
          ProxyStep.timeAdvance 30000]) 2).pending.lookup 1
      = (run initState [ProxyStep.start, ProxyStep.clientSend "completionInfo",
          ProxyStep.timeAdvance 30000]).pending.lookup 1 :=
  ⟨by decide, by decide,
   (C4_timeout_isolation
     (run initState [ProxyStep.start, ProxyStep.clientSend "completionInfo",
       ProxyStep.timeAdvance 30000]) 2
     { command := "completionInfo", createdAt := 0 }
     (by decide) (by decide)).1,
   (C4_timeout_isolation
     (run initState [ProxyStep.start, ProxyStep.clientSend "completionInfo",
       ProxyStep.timeAdvance 30000]) 2
     { command := "completionInfo", createdAt := 0 }
     (by decide) (by decide)).2.2.1,
   (C4_timeout_isolation
     (run initState [ProxyStep.start, ProxyStep.clientSend "completionInfo",
       ProxyStep.timeAdvance 30000]) 2
     { command := "completionInfo", createdAt := 0 }
     (by decide) (by decide)).2.2.2.2 1 (by decide)⟩

/-- C4 counterexample: the claim as stated says the deadline length
depends on the command class (short for interactive completions, longer
for full-project operations).  In the code the `setTimeout` delay is
the literal 30000 for every command: an interactive `completionInfo`
and a full-project `geterr` registered at time 0 both survive until
29999 and both time out at 30000 — their deadlines are identical, so no
command class has a shorter deadline than another. -/
theorem C4_deadline_not_command_dependent :
    (let s0 := run initState [ProxyStep.start,
        ProxyStep.clientSend "completionInfo", ProxyStep.clientSend "geterr"];
     (run s0 [ProxyStep.timeAdvance 29999, ProxyStep.requestTimeout 2,
        ProxyStep.requestTimeout 3]).settled = [] ∧
     (run s0 [ProxyStep.timeAdvance 30000, ProxyStep.requestTimeout 2,
        ProxyStep.requestTimeout 3]).settled =
       [mkSettlement 2 Outcome.timeout
          { command := "completionInfo", createdAt := 0 } 30000,
        mkSettlement 3 Outcome.timeout
          { command := "geterr", createdAt := 0 } 30000]) := by
  decide

/-- C5: along any run of the event loop from the constructor state, the
sequence ids assigned by `sendTSServerRequest` (pre-increment of
`this.requestId`) are strictly increasing in assignment order and
pairwise distinct; in particular an id is never reassigned while an
entry bearing it is pending. -/
theorem C5_sequence_ids_strictly_increasing (steps : List ProxyStep) :
    (run initState steps).assigned.Pairwise (· < ·) ∧
    (run initState steps).assigned.Nodup :=
  ⟨(inv_run steps).assigned_sorted,
   (inv_run steps).assigned_sorted.imp Nat.ne_of_lt⟩

/-- C10: every pending request settles at most once along any run: the
settlement trace never contains two settlements for the same sequence
id (response, timeout and crash rejection each delete the entry and
clear its timer first), and no settled id is still pending. -/
theorem C10_settle_at_most_once (steps : List ProxyStep) :
    ((run initState steps).settled.map (·.seq)).Nodup ∧
    ∀ e ∈ (run initState steps).settled,
      e.seq ∉ pendingIds (run initState steps) :=
  ⟨(inv_run steps).settled_nodup, (inv_run steps).settled_pend⟩

/-! ## Claim theorems for the coordinate / severity translator -/

/-- C7: translation subtracts 1 backend-to-client and adds 1
client-to-backend, applied uniformly to both endpoints of every range;
for all non-negative client coordinates the round trip
`toClient(toBackend(line, char))` is the identity, and a backend
diagnostic starting at `line 5, offset 10` translates to a client range
starting at `line 4, character 9`. -/
theorem C7_coordinate_translation (line char : Int)
    (_hl : 0 ≤ line) (_hc : 0 ≤ char) :
    tsToLSPPosition (lspToTSPosition { line := line, character := char })
      = { line := line, character := char } ∧
    (∀ d : TSDiagnostic,
      (tsDiagnosticToLsp d).range.start
        = { line := d.start.line - 1, character := d.start.offset - 1 } ∧
      (tsDiagnosticToLsp d).range.endPos
        = { line := d.endPos.line - 1, character := d.endPos.offset - 1 }) ∧
    (tsDiagnosticToLsp ⟨⟨5, 10⟩, ⟨5, 12⟩, "error", "m", 1⟩).range.start
      = { line := 4, character := 9 } := by
  refine ⟨?_, fun d => ⟨rfl, rfl⟩, by decide⟩
  simp [tsToLSPPosition, lspToTSPosition]

/-- Witness for C7 at the concrete non-negative client position
`(7, 3)`. -/
theorem C7_coordinate_translation_witness :
    (0 : Int) ≤ 7 ∧ (0 : Int) ≤ 3 ∧
    tsToLSPPosition (lspToTSPosition { line := 7, character := 3 })
      = { line := 7, character := 3 } :=
  ⟨by decide, by decide,
   (C7_coordinate_translation 7 3 (by decide) (by decide)).1⟩

/-- C9: `mapTSServerSeverity` maps the backend categories `error`,
`warning`, `suggestion` and `message` to the ordinal severities 1, 2, 3
and 4 respectively (`message` through the default branch), and every
translated diagnostic's severity is produced by it. -/
theorem C9_severity_mapping :
    mapTSServerSeverity "error" = 1 ∧ mapTSServerSeverity "warning" = 2 ∧
    mapTSServerSeverity "suggestion" = 3 ∧
    mapTSServerSeverity "message" = 4 ∧
    ∀ d : TSDiagnostic,
      (tsDiagnosticToLsp d).severity = mapTSServerSeverity d.category :=
  ⟨by decide, by decide, by decide, by decide, fun d => rfl⟩

/-! ## Claim theorem for the transport framer -/

/-- C6: the claim says `decode(encode(E)) = E` for every envelope, and
that chunk-split feeding yields the same single envelope.  The code
violates the round trip for any envelope whose JSON payload contains a
non-ASCII character: `sendMessage` declares the UTF-8 byte length (43
for the notification with method `é` below) while `handleIncomingData`
compares and slices that count against JS string length in code units
(42), so the frame is never considered complete and no envelope is
ever decoded.  The theorem evaluates the code at the failing input, and
also at an all-ASCII envelope (whole and split across two chunks) to
show the decode loop is otherwise exact. -/
theorem C6_framing_length_unit_mismatch :
    (let bad := Json.obj [("jsonrpc".data, Json.str "2.0".data),
        ("method".data, Json.str ['é']), ("params".data, Json.obj [])];
     let good := Json.obj [("jsonrpc".data, Json.str "2.0".data),
        ("method".data, Json.str ['m']), ("params".data, Json.obj [])];
     utf8Length bad.render = bad.render.length + 1 ∧
     handleIncomingData [] (encodeMessage bad) = ([], encodeMessage bad) ∧
     utf8Length good.render = good.render.length ∧
     handleIncomingData [] (encodeMessage good) = ([good], []) ∧
     handleIncomingData [] ((encodeMessage good).take 10)
       = ([], (encodeMessage good).take 10) ∧
     handleIncomingData ((encodeMessage good).take 10)
         ((encodeMessage good).drop 10)
       = ([good], [])) :=
  ⟨rfl, rfl, rfl, rfl, rfl, rfl⟩

/-! ## Lemmas for the URI codec -/

/-- Round trip of one hex digit. -/
theorem hexVal_hexDigitUpper : ∀ n, n < 16 →
    hexValOfChar (hexDigitUpper n) = some n := by
  decide

/-- Round trip of one percent-encoded byte. -/
theorem hexByte_percent (b : Nat) (hb : b < 256) :
    hexByte (hexDigitUpper (b / 16)) (hexDigitUpper (b % 16)) = some b := by
  have h1 := hexVal_hexDigitUpper (b / 16) (by omega)
  have h2 := hexVal_hexDigitUpper (b % 16) (by omega)
  simp only [hexByte, h1, h2]
  congr 1
  omega

/-- Every `Char` is a Unicode scalar value: below the surrogates or
between them and the code-point ceiling. -/
theorem char_valid_ranges (c : Char) :
    c.toNat < 55296 ∨ (57344 ≤ c.toNat ∧ c.toNat < 1114112) := by
  have h := c.valid
  simp [UInt32.isValidChar, Nat.isValidChar] at h
  exact h

/-- `%` itself is percent-encoded by `encodeURI`. -/
theorem percent_not_unescaped : encodeURIUnescaped '%' = false := by decide

/-- The decode loop on the empty string. -/
theorem decodeURIChars_nil (fuel : Nat) : decodeURIChars fuel [] = some [] := by
  cases fuel <;> rfl

/-- Decoding past one character that `encodeURI` leaves unescaped. -/
theorem decode_step_plain (fuel : Nat) (c : Char) (rest : List Char)
    (hu : encodeURIUnescaped c = true) :
    decodeURIChars (fuel + 1) (c :: rest)
      = (decodeURIChars fuel rest).map (c :: ·) := by
  have hc : c ≠ '%' := by
    intro he
    rw [he, percent_not_unescaped] at hu
    exact Bool.false_ne_true hu
  simp only [decodeURIChars]
  rw [if_neg hc]

/-- Decoding past the percent-escape cluster that `encodeURI` emits for
one character outside its unescaped set, in each of the four UTF-8
length classes. -/
theorem decode_step_escaped (fuel : Nat) (c : Char) (rest : List Char)
    (hu : encodeURIUnescaped c = false) :
    decodeURIChars (fuel + 1) (encodeURIChar c ++ rest)
      = (decodeURIChars fuel rest).map (c :: ·) := by
  have hval := char_valid_ranges c
  have hofn := Char.ofNat_toNat c
  have hchar : encodeURIChar c = ((utf8Bytes c).map percentByte).flatten := by
    unfold encodeURIChar
    rw [if_neg (by simp [hu])]
  by_cases h1 : c.toNat < 128
  · have hb : utf8Bytes c = [c.toNat] := by unfold utf8Bytes; rw [if_pos h1]
    rw [hchar, hb]
    simp only [List.map_cons, List.map_nil, List.flatten_cons, List.flatten_nil,
      percentByte, List.append_nil, List.cons_append, List.nil_append]
    simp only [decodeURIChars]
    rw [if_pos trivial]
    simp only [decodeCluster]
    rw [hexByte_percent c.toNat (by omega)]
    simp only []
    rw [if_pos h1]
    simp only [List.drop_succ_cons, List.drop_zero, hofn]
  · by_cases h2 : c.toNat < 2048
    · have hb : utf8Bytes c = [192 + c.toNat / 64, 128 + c.toNat % 64] := by
        unfold utf8Bytes
        rw [if_neg h1, if_pos h2]
      rw [hchar, hb]
      simp only [List.map_cons, List.map_nil, List.flatten_cons, List.flatten_nil,
        percentByte, List.append_nil, List.cons_append, List.nil_append]
      simp only [decodeURIChars]
      rw [if_pos trivial]
      simp only [decodeCluster]
      rw [hexByte_percent (192 + c.toNat / 64) (by omega)]
      simp only []
      rw [if_neg (by omega), if_neg (by omega), if_pos (by omega)]
      rw [hexByte_percent (128 + c.toNat % 64) (by omega)]
      simp only []
      rw [if_pos (by omega)]
      have harith : (192 + c.toNat / 64 - 192) * 64 + (128 + c.toNat % 64 - 128)
          = c.toNat := by omega
      rw [harith, hofn]
      simp only [List.drop_succ_cons, List.drop_zero]
    · by_cases h3 : c.toNat < 65536
      · have hb : utf8Bytes c = [224 + c.toNat / 4096, 128 + (c.toNat / 64) % 64,
            128 + c.toNat % 64] := by
          unfold utf8Bytes
          rw [if_neg h1, if_neg h2, if_pos h3]
        rw [hchar, hb]
        simp only [List.map_cons, List.map_nil, List.flatten_cons,
          List.flatten_nil, percentByte, List.append_nil, List.cons_append,
          List.nil_append]
        simp only [decodeURIChars]
        rw [if_pos trivial]
        simp only [decodeCluster]
        rw [hexByte_percent (224 + c.toNat / 4096) (by omega)]
        simp only []
        rw [if_neg (by omega), if_neg (by omega), if_neg (by omega),
          if_pos (by omega)]
        rw [hexByte_percent (128 + (c.toNat / 64) % 64) (by omega),
          hexByte_percent (128 + c.toNat % 64) (by omega)]
        simp only []
        rw [if_pos (by omega)]
        have harith : (224 + c.toNat / 4096 - 224) * 4096 +
            (128 + (c.toNat / 64) % 64 - 128) * 64 + (128 + c.toNat % 64 - 128)
            = c.toNat := by omega
        rw [harith, if_pos (by omega)]
        rw [hofn]
        simp only [List.drop_succ_cons, List.drop_zero]
      · have hb : utf8Bytes c = [240 + c.toNat / 262144,
            128 + (c.toNat / 4096) % 64, 128 + (c.toNat / 64) % 64,
            128 + c.toNat % 64] := by
          unfold utf8Bytes
          rw [if_neg h1, if_neg h2, if_neg h3]
        have hup : c.toNat < 1114112 := by omega
        rw [hchar, hb]
        simp only [List.map_cons, List.map_nil, List.flatten_cons,
          List.flatten_nil, percentByte, List.append_nil, List.cons_append,
          List.nil_append]
        simp only [decodeURIChars]
        rw [if_pos trivial]
        simp only [decodeCluster]
        rw [hexByte_percent (240 + c.toNat / 262144) (by omega)]
        simp only []
        rw [if_neg (by omega), if_neg (by omega), if_neg (by omega),
          if_neg (by omega)]
        rw [if_pos (by omega)]
        rw [hexByte_percent (128 + (c.toNat / 4096) % 64) (by omega),
          hexByte_percent (128 + (c.toNat / 64) % 64) (by omega),
          hexByte_percent (128 + c.toNat % 64) (by omega)]
        simp only []
        rw [if_pos (by omega)]
        have harith : (240 + c.toNat / 262144 - 240) * 262144 +
            (128 + (c.toNat / 4096) % 64 - 128) * 4096 +
            (128 + (c.toNat / 64) % 64 - 128) * 64 + (128 + c.toNat % 64 - 128)
            = c.toNat := by omega
        rw [harith, if_pos (by omega)]
        rw [hofn]
        simp only [List.drop_succ_cons, List.drop_zero]

/-- The decoder is fuel-insensitive once the fuel covers the input
length. -/
theorem decodeURIChars_fuel_eq : ∀ (f1 : Nat) (l : List Char) (f2 : Nat),
    l.length ≤ f1 → l.length ≤ f2 →
    decodeURIChars f1 l = decodeURIChars f2 l := by
  intro f1
  induction f1 with
  | zero =>
    intro l f2 h1 _
    have : l = [] := List.length_eq_zero.mp (Nat.le_zero.mp h1)
    subst this
    rw [decodeURIChars_nil, decodeURIChars_nil]
  | succ g ih =>
    intro l f2 h1 h2
    cases l with
    | nil => rw [decodeURIChars_nil, decodeURIChars_nil]
    | cons c rest =>
      cases f2 with
      | zero => simp at h2
      | succ g2 =>
        simp only [decodeURIChars]
        simp only [List.length_cons] at h1 h2
        by_cases hc : c = '%'
        · rw [if_pos hc, if_pos hc]
          cases hcl : decodeCluster rest with
          | none => rfl
          | some pr =>
            obtain ⟨ch, k⟩ := pr
            have hdl : (rest.drop k).length ≤ rest.length := by
              simp [List.length_drop]
            dsimp only
            rw [ih (rest.drop k) g2 (by omega) (by omega)]
        · rw [if_neg hc, if_neg hc, ih rest g2 (by omega) (by omega)]

/-- `encodeURI` on the empty string. -/
theorem encodeURI_nil : encodeURI [] = [] := rfl

/-- `encodeURI` proceeds character by character. -/
theorem encodeURI_cons (c : Char) (p : List Char) :
    encodeURI (c :: p) = encodeURIChar c ++ encodeURI p := by
  simp [encodeURI]

/-- Every character encodes to at least one character. -/
theorem encodeURIChar_length_pos (c : Char) : 0 < (encodeURIChar c).length := by
  unfold encodeURIChar utf8Bytes
  by_cases hu : encodeURIUnescaped c
  · rw [if_pos hu]; simp
  · rw [if_neg (by simp [hu])]
    by_cases h1 : c.toNat < 128
    · rw [if_pos h1]; simp [percentByte]
    · rw [if_neg h1]
      by_cases h2 : c.toNat < 2048
      · rw [if_pos h2]; simp [percentByte]
      · rw [if_neg h2]
        by_cases h3 : c.toNat < 65536
        · rw [if_pos h3]; simp [percentByte]
        · rw [if_neg h3]; simp [percentByte]

/-- `decodeURIComponent` inverts `encodeURI` on any encoded prefix. -/
theorem decode_encodeURI_aux : ∀ (p rest : List Char) (fuel : Nat),
    (encodeURI p ++ rest).length ≤ fuel →
    decodeURIChars fuel (encodeURI p ++ rest)
      = (decodeURIChars rest.length rest).map (p ++ ·) := by
  intro p
  induction p with
  | nil =>
    intro rest fuel h
    rw [encodeURI_nil] at h ⊢
    simp only [List.nil_append] at h ⊢
    rw [decodeURIChars_fuel_eq fuel rest rest.length h (le_refl _)]
    cases decodeURIChars rest.length rest <;> simp
  | cons c p ih =>
    intro rest fuel h
    rw [encodeURI_cons, List.append_assoc] at h ⊢
    have hlen : (encodeURIChar c).length +
        ((encodeURI p ++ rest).length) ≤ fuel := by
      simpa [List.length_append] using h
    have hpos := encodeURIChar_length_pos c
    obtain ⟨g, rfl⟩ : ∃ g, fuel = g + 1 := ⟨fuel - 1, by omega⟩
    by_cases hu : encodeURIUnescaped c
    · have hchar : encodeURIChar c = [c] := by
        unfold encodeURIChar; rw [if_pos hu]
      rw [hchar] at hlen ⊢
      simp only [List.cons_append, List.nil_append]
      rw [decode_step_plain g c _ hu]
      rw [ih rest g (by simp at hlen ⊢; omega)]
      cases decodeURIChars rest.length rest <;> simp
    · have hu2 : encodeURIUnescaped c = false := by
        cases hq : encodeURIUnescaped c
        · rfl
        · exact absurd hq hu
      rw [decode_step_escaped g c _ hu2]
      rw [ih rest g (by omega)]
      cases decodeURIChars rest.length rest <;> simp

/-- `decodeURIComponent (encodeURI p) = p` for every string `p`. -/
theorem decode_encodeURI (p : List Char) :
    decodeURIComponentChars (encodeURI p) = some p := by
  unfold decodeURIComponentChars
  have h := decode_encodeURI_aux p [] (encodeURI p).length (by simp)
  simp only [List.append_nil] at h
  rw [h]
  rw [decodeURIChars_nil]
  simp

/-- A list starts with its own prefix. -/
theorem startsWithSeq_append (pat x : List Char) :
    startsWithSeq (pat ++ x) pat = true := by
  induction pat with
  | nil => cases x <;> rfl
  | cons a t ih => simp [startsWithSeq, ih]

/-- Stripping a leading literal with `String.prototype.replace`. -/
theorem replaceFirst_strip (pat x : List Char) :
    replaceFirst (pat ++ x) pat [] = x := by
  unfold replaceFirst
  have hidx : indexOfSeq (pat ++ x) pat = some 0 := by
    unfold indexOfSeq
    rw [if_pos (startsWithSeq_append pat x)]
  rw [hidx]
  simp [List.drop_left]

/-- `mapSlash` is the identity on backslash-free strings. -/
theorem mapSlash_id (p : List Char) (hnb : Char.ofNat 92 ∉ p) :
    mapSlash p = p := by
  unfold mapSlash
  have h : ∀ x ∈ p, (fun c => if c = Char.ofNat 92 then '/' else c) x = x := by
    intro x hx
    have hxne : x ≠ Char.ofNat 92 := by
      intro he
      rw [he] at hx
      exact hnb hx
    simp [hxne]
  calc p.map (fun c => if c = Char.ofNat 92 then '/' else c)
      = p.map id := List.map_congr_left h
    _ = p := List.map_id p

/-! ## Claim theorems for the URI / path conversion -/

/-- C8 (amended): for every nonempty, backslash-free path already in
resolved (absolute, normalized) form, converting it to a URI and back
is lossless — every percent-escape produced by the path-to-URI
direction is decoded by the URI-to-path direction. -/
theorem C8_path_uri_round_trip (cwd p : List Char)
    (hres : resolvePosix cwd p = p) (hnb : Char.ofNat 92 ∉ p)
    (hne : p ≠ []) :
    (filePathToUri cwd p).bind uriToFilePath = some p := by
  unfold filePathToUri
  rw [if_neg (by simpa [List.isEmpty_iff] using hne)]
  rw [hres, mapSlash_id p hnb]
  simp only [Option.some_bind]
  unfold uriToFilePath
  rw [replaceFirst_strip fileScheme (encodeURI p)]
  exact decode_encodeURI p

/-- C8 counterexample: the claim as stated also requires URI-to-path
round-trip stability and says reserved characters are percent-encoded
on the path-to-URI direction.  Neither holds: `encodeURI` leaves the
reserved `?` bare, so the URI `file:///a%3Fb` decodes to the path
`/a?b` but re-encodes to the different URI `file:///a?b`. -/
theorem C8_uri_path_uri_not_stable :
    uriToFilePath "file:///a%3Fb".data = some "/a?b".data ∧
    filePathToUri "/".data "/a?b".data = some "file:///a?b".data ∧
    ("file:///a?b".data : List Char) ≠ "file:///a%3Fb".data := by
  refine ⟨by decide, by decide, by decide⟩

/-- Witness for C8 at the concrete resolved path `/tmp/a b/c?d.ts`
(space percent-encoded and decoded back, reserved `?` passed
through). -/
theorem C8_path_uri_round_trip_witness :
    resolvePosix "/".data "/tmp/a b/c?d.ts".data = "/tmp/a b/c?d.ts".data ∧
    Char.ofNat 92 ∉ "/tmp/a b/c?d.ts".data ∧
    "/tmp/a b/c?d.ts".data ≠ ([] : List Char) ∧
    (filePathToUri "/".data "/tmp/a b/c?d.ts".data).bind uriToFilePath
      = some "/tmp/a b/c?d.ts".data :=
  ⟨by decide, by decide, by decide,
   C8_path_uri_round_trip "/".data "/tmp/a b/c?d.ts".data
     (by decide) (by decide) (by decide)⟩

end VoltLSP
